import Mathlib

/-
Verification of the CSS selector builder in `src/05-objects-tasks.js`
(the `cssSelectorBuilder` object).  The builder is a single shared mutable
object; we model its state as an explicit `Builder` record threaded through
every operation.  Operations that can `throw` return
`Except (String × Builder) Builder`: an error carries both the message of the
thrown `Error` and the (mutated) state of the shared object at the moment of
the throw, since in the source the mutations performed before the throw
persist on the shared instance.
-/

namespace CoreJs

/-- State of `cssSelectorBuilder.selectObj` (lines 121-130 of the source).
All eight properties are strings, initially `''`.  The source property
`class` is renamed `cls` here because `class` is a Lean keyword. -/
structure SelectObj where
  tag : String
  id : String
  cls : String
  attr : String
  pseudoClass : String
  pseudoElement : String
  seq : String
  prevElem : String
deriving DecidableEq

/-- The all-empty `selectObj`, as produced by `cleanSelector`. -/
def SelectObj.clean : SelectObj := ⟨"", "", "", "", "", "", "", ""⟩

/-- Full mutable state of the shared `cssSelectorBuilder` object:
`selectObj`, the `combo` and `comboSeparators` arrays, and the two
boolean flags `firstMode` (initially `true`) and `firstId`
(initially `false`). -/
structure Builder where
  selectObj : SelectObj
  combo : List String
  comboSeparators : List String
  firstMode : Bool
  firstId : Bool
deriving DecidableEq

/-- The initial state of `cssSelectorBuilder` as written in the object
literal (lines 120-138). -/
def freshBuilder : Builder := ⟨SelectObj.clean, [], [], true, false⟩

/-- `this.errors.order` (line 136). -/
def errOrder : String :=
  "Selector parts should be arranged in the following order: element, id, class, attribute, pseudo-class, pseudo-element"

/-- `this.errors.moreThanOne` (line 137). -/
def errMoreThanOne : String :=
  "Element, id and pseudo-element should not occur more then one time inside the selector"

/-- Result of a builder method that may throw: on error we keep the message
together with the state of the shared object at the moment of the throw. -/
abbrev BResult := Except (String × Builder) Builder

/-- `cleanSelector()` (lines 219-223): sets every key of `selectObj` to `''`. -/
def cleanSelector (b : Builder) : Builder :=
  { b with selectObj := SelectObj.clean }

/-- `genSelector()` (lines 225-230): remembers `selectObj.seq`, clears
`selectObj`, stores the remembered string in `selectObj.prevElem` and
returns it. -/
def genSelector (b : Builder) : String × Builder :=
  let result := b.selectObj.seq
  let b1 := cleanSelector b
  (result, { b1 with selectObj := { b1.selectObj with prevElem := result } })

/-- `writeCombo()` (lines 232-239): pushes `selectObj.prevElem` (clearing it)
onto `combo` when it is truthy (a non-empty string), otherwise pushes
`selectObj.seq`. -/
def writeCombo (b : Builder) : Builder :=
  if b.selectObj.prevElem ≠ "" then
    { b with combo := b.combo ++ [b.selectObj.prevElem],
             selectObj := { b.selectObj with prevElem := "" } }
  else
    { b with combo := b.combo ++ [b.selectObj.seq] }

/-- `genError(message)` (lines 272-278): clears `selectObj`, resets
`prevElem`, `firstMode` and `firstId`, and throws; `combo` and
`comboSeparators` are left untouched.  We return the message paired with
the state at the moment of the throw. -/
def genError (message : String) (b : Builder) : String × Builder :=
  let b1 := cleanSelector b
  (message,
   { b1 with selectObj := { b1.selectObj with prevElem := "" },
             firstMode := true, firstId := false })

/-- The flush at the top of `element()` (lines 141-145): when `selectObj.seq`
is truthy and `firstMode` is false, the current sequence is finalized via
`genSelector()`, pushed by `writeCombo()`, and `firstMode` is set back to
`true`. -/
def elementFlush (b : Builder) : Builder :=
  if b.selectObj.seq ≠ "" ∧ ¬ b.firstMode then
    { writeCombo (genSelector b).2 with firstMode := true }
  else b

/-- `element(tag)` (lines 140-154).  After the optional flush it throws the
order error when `firstId` is set, the duplicate error when `selectObj.tag`
is truthy while `firstMode` holds, and otherwise overwrites both
`selectObj.tag` and `selectObj.seq` with `tag` (note `seq = tag`, an
assignment, not an append).  `firstMode` is not modified outside the flush. -/
def element (tag : String) (b : Builder) : BResult :=
  let b1 := elementFlush b
  if b1.firstId then .error (genError errOrder b1)
  else if b1.selectObj.tag ≠ "" ∧ b1.firstMode then .error (genError errMoreThanOne b1)
  else .ok { b1 with selectObj := { b1.selectObj with tag := tag, seq := tag } }

/-- `id(_id)` (lines 156-172).  The source begins with
`if (this.prevElem) { this.writeCombo(); }`: `this.prevElem` reads a
property that never exists on the builder object (the field lives at
`this.selectObj.prevElem`), so this guard is always `undefined`/falsy and
the `writeCombo` call is dead code; it is therefore not modelled.  Then:
duplicate error when `selectObj.id` is truthy; order error when
`selectObj.class` or `selectObj.pseudoElement` is truthy; order error when
`selectObj.tag` is truthy and `selectObj.seq` is strictly longer than
`selectObj.tag`; otherwise append `'#' + _id`, set `firstId` when `seq`
was empty, and clear `firstMode`. -/
def idOp (v : String) (b : Builder) : BResult :=
  if b.selectObj.id ≠ "" then .error (genError errMoreThanOne b)
  else if b.selectObj.cls ≠ "" ∨ b.selectObj.pseudoElement ≠ "" then
    .error (genError errOrder b)
  else if b.selectObj.tag ≠ "" ∧ b.selectObj.seq.length > b.selectObj.tag.length then
    .error (genError errOrder b)
  else
    .ok { b with
          selectObj := { b.selectObj with
                         id := "#" ++ v,
                         seq := b.selectObj.seq ++ ("#" ++ v) },
          firstId := (if b.selectObj.seq == "" then true else b.firstId),
          firstMode := false }

/-- `class(_class)` (lines 174-183).  The only check is
`if (this.selectObj.attr) throw new Error(this.errors.order)` — a direct
`throw`, not a `genError` call, so nothing is cleared on this error path
and the state at the throw is `b` unchanged.  Otherwise `'.' + _class` is
recorded (overwriting `selectObj.class`, appending to `seq`) and both
flags are cleared. -/
def classOp (v : String) (b : Builder) : BResult :=
  if b.selectObj.attr ≠ "" then .error (errOrder, b)
  else
    .ok { b with
          selectObj := { b.selectObj with
                         cls := "." ++ v,
                         seq := b.selectObj.seq ++ ("." ++ v) },
          firstMode := false, firstId := false }

/-- `attr(_attr)` (lines 185-195): order error via `genError` when
`selectObj.pseudoClass` is truthy; otherwise records `'[' + _attr + ']'`
and clears both flags. -/
def attrOp (v : String) (b : Builder) : BResult :=
  if b.selectObj.pseudoClass ≠ "" then .error (genError errOrder b)
  else
    .ok { b with
          selectObj := { b.selectObj with
                         attr := "[" ++ v ++ "]",
                         seq := b.selectObj.seq ++ ("[" ++ v ++ "]") },
          firstMode := false, firstId := false }

/-- `pseudoClass(_pseudoClass)` (lines 197-206): order error via `genError`
when `selectObj.pseudoElement` is truthy; otherwise records
`':' + _pseudoClass` and clears both flags. -/
def pseudoClassOp (v : String) (b : Builder) : BResult :=
  if b.selectObj.pseudoElement ≠ "" then .error (genError errOrder b)
  else
    .ok { b with
          selectObj := { b.selectObj with
                         pseudoClass := ":" ++ v,
                         seq := b.selectObj.seq ++ (":" ++ v) },
          firstMode := false, firstId := false }

/-- `pseudoElement(_pseudoElement)` (lines 208-217): duplicate error via
`genError` when `selectObj.pseudoElement` is already truthy; otherwise
records `'::' + _pseudoElement` and clears both flags. -/
def pseudoElementOp (v : String) (b : Builder) : BResult :=
  if b.selectObj.pseudoElement ≠ "" then .error (genError errMoreThanOne b)
  else
    .ok { b with
          selectObj := { b.selectObj with
                         pseudoElement := "::" ++ v,
                         seq := b.selectObj.seq ++ ("::" ++ v) },
          firstMode := false, firstId := false }

/-- `combine(...args)` (lines 241-248).  The source reads only `args[1]`
(the combinator); the first and third arguments are received but never
used (in the repository they are always `this`, already mutated by the
chains that produced them).  When `selectObj.seq` is truthy the current
sequence is flushed via `genSelector`/`writeCombo`, then the combinator is
pushed onto `comboSeparators`.  `combine` never throws. -/
def combine (_left : Builder) (separator : String) (_right : Builder)
    (b : Builder) : Builder :=
  let b1 :=
    if b.selectObj.seq ≠ "" then writeCombo (genSelector b).2 else b
  { b1 with comboSeparators := b1.comboSeparators ++ [separator] }

/-- JavaScript `Array.prototype.join(' ')`: elements separated by a single
space (`undefined`/out-of-range separators are handled in `comboParts`). -/
def joinSp : List String → String
  | [] => ""
  | [x] => x
  | x :: y :: xs => x ++ " " ++ joinSp (y :: xs)

/-- The `flatMap` in `stringify` (lines 253-258): every element except the
last is followed by the separator at its index.  An out-of-range index
yields `undefined` in the source, which `join` renders as the empty
string; this is modelled by `List.getD _ _ ""`. -/
def comboParts (combo seps : List String) : List String :=
  combo.enum.flatMap fun p =>
    if p.1 < combo.length - 1 then [p.2, seps.getD p.1 ""] else [p.2]

/-- `stringify()` (lines 250-270).  With a non-empty `combo` it reverses
`comboSeparators` (the source mutates the array with `.reverse()` before
discarding it), interleaves the segments with the reversed separators,
joins everything with `' '`, clears `combo`/`comboSeparators` and resets
the flags — `selectObj` is NOT touched on this path.  With an empty
`combo` it returns `genSelector()` (which clears `selectObj`), clears
`prevElem` and resets the flags — `comboSeparators` is NOT touched on
this path. -/
def stringify (b : Builder) : String × Builder :=
  if b.combo.length > 0 then
    let result := joinSp (comboParts b.combo b.comboSeparators.reverse)
    (result,
     { b with comboSeparators := [], combo := [], firstMode := true, firstId := false })
  else
    let r := genSelector b
    (r.1,
     { r.2 with selectObj := { r.2.selectObj with prevElem := "" },
                firstMode := true, firstId := false })

/-- One chained call on the builder (the six fragment-appending methods). -/
inductive Call where
  | elem (v : String)
  | idc (v : String)
  | clsc (v : String)
  | attrc (v : String)
  | pclsc (v : String)
  | pelemc (v : String)
deriving DecidableEq

/-- Dispatch a single call to the corresponding builder method. -/
def applyCall : Call → Builder → BResult
  | .elem v, b => element v b
  | .idc v, b => idOp v b
  | .clsc v, b => classOp v b
  | .attrc v, b => attrOp v b
  | .pclsc v, b => pseudoClassOp v b
  | .pelemc v, b => pseudoElementOp v b

/-- Run a list of chained calls left to right, propagating a thrown error. -/
def runCalls (cs : List Call) (b : Builder) : BResult :=
  cs.foldlM (fun s c => applyCall c s) b

/-! ### Canonical simple-selector chains

A `SimpleChain` is a chain of calls in the valid category order
`element? id? class* attr* pseudoClass* pseudoElement?`, given by its six
components. -/

/-- Concatenation of `f` applied to every element, in order. -/
def catMap (f : String → String) : List String → String
  | [] => ""
  | v :: vs => f v ++ catMap f vs

/-- The value of `f` at the last element, or `d` when the list is empty
(the builder fields `class`/`attr`/`pseudoClass` keep only the last value
written, while `seq` accumulates all of them). -/
def lastMapD (f : String → String) (d : String) : List String → String
  | [] => d
  | v :: vs => lastMapD f (f v) vs

/-- Prefix rendering of an id fragment. -/
def idF (v : String) : String := "#" ++ v

/-- Prefix rendering of a class fragment. -/
def dotF (v : String) : String := "." ++ v

/-- Rendering of an attribute fragment. -/
def brackF (v : String) : String := "[" ++ v ++ "]"

/-- Prefix rendering of a pseudo-class fragment. -/
def colF (v : String) : String := ":" ++ v

/-- Prefix rendering of a pseudo-element fragment. -/
def pelF (v : String) : String := "::" ++ v

/-- A chain of calls in the valid category order: optional `element`, then
optional `id`, then any number of `class`, `attr`, `pseudoClass` calls,
then optional `pseudoElement`. -/
structure SimpleChain where
  tag : Option String
  idv : Option String
  cls : List String
  attrs : List String
  pcls : List String
  pelem : Option String
deriving DecidableEq

/-- The call list of a canonical chain. -/
def SimpleChain.calls (ch : SimpleChain) : List Call :=
  (ch.tag.toList.map Call.elem) ++ (ch.idv.toList.map Call.idc)
    ++ (ch.cls.map Call.clsc) ++ (ch.attrs.map Call.attrc)
    ++ (ch.pcls.map Call.pclsc) ++ (ch.pelem.toList.map Call.pelemc)

/-- The concatenation of the chain's fragments, in call order, with their
CSS prefixes: tag verbatim, `#id`, `.class` per call, `[attr]` per call,
`:pseudoClass` per call, `::pseudoElement`. -/
def SimpleChain.str (ch : SimpleChain) : String :=
  ch.tag.getD "" ++ (ch.idv.map idF).getD "" ++ catMap dotF ch.cls
    ++ catMap brackF ch.attrs ++ catMap colF ch.pcls ++ (ch.pelem.map pelF).getD ""

/-- Whether the chain contains any fragment besides the optional leading
`element` (those are exactly the calls that set `firstMode := false`). -/
def SimpleChain.hasTail (ch : SimpleChain) : Bool :=
  ch.idv.isSome || !ch.cls.isEmpty || !ch.attrs.isEmpty || !ch.pcls.isEmpty
    || ch.pelem.isSome

/-- The `selectObj` reached after running the chain from a clean `selectObj`. -/
def SimpleChain.endObj (ch : SimpleChain) : SelectObj :=
  ⟨ch.tag.getD "", (ch.idv.map idF).getD "", lastMapD dotF "" ch.cls,
   lastMapD brackF "" ch.attrs, lastMapD colF "" ch.pcls,
   (ch.pelem.map pelF).getD "", ch.str, ""⟩

/-- The `firstMode` flag after running the chain, starting from flag `fm`. -/
def SimpleChain.endFM (ch : SimpleChain) (fm : Bool) : Bool :=
  if ch.hasTail then false else fm

/-- The `firstId` flag after running the chain from a clean `selectObj` with
`firstId = false`: set exactly when the chain starts with `id` (no tag
text before it) and nothing follows the id. -/
def SimpleChain.endFid (ch : SimpleChain) : Bool :=
  ch.idv.isSome && (ch.tag.getD "" == "") && ch.cls.isEmpty && ch.attrs.isEmpty
    && ch.pcls.isEmpty && !ch.pelem.isSome

/-! ### Small rewriting lemmas for `runCalls` -/

theorem runCalls_nil (b : Builder) : runCalls [] b = .ok b := rfl

theorem runCalls_cons (cl : Call) (cs : List Call) (b : Builder) :
    runCalls (cl :: cs) b = applyCall cl b >>= runCalls cs := rfl

theorem ok_bind {α β σ : Type} (a : α) (f : α → Except σ β) :
    (Except.ok a : Except σ α) >>= f = f a := rfl

theorem runCalls_append (l1 l2 : List Call) (b : Builder) :
    runCalls (l1 ++ l2) b = runCalls l1 b >>= runCalls l2 :=
  List.foldlM_append ..

/-! ### Success-path lemmas for the individual operations -/

/-- `element` from a state with an empty `seq`, clean `tag` and unset
`firstId`: no flush, no error. -/
theorem element_clean (t : String) (c p : List String) (fm : Bool) :
    element t ⟨⟨"", "", "", "", "", "", "", ""⟩, c, p, fm, false⟩ =
      .ok ⟨⟨t, "", "", "", "", "", t, ""⟩, c, p, fm, false⟩ := by
  unfold element elementFlush
  simp

/-- `id` from a state whose `seq` is exactly the tag text (no fragment after
the optional `element`): appends, records `firstId` iff `seq` was empty. -/
theorem idOp_seq_eq_tag (v : String) (so : SelectObj) (c p : List String) (fm : Bool)
    (h1 : so.id = "") (h2 : so.cls = "") (h3 : so.pseudoElement = "")
    (h4 : so.seq = so.tag) :
    idOp v ⟨so, c, p, fm, false⟩ =
      .ok ⟨⟨so.tag, idF v, so.cls, so.attr, so.pseudoClass, so.pseudoElement,
            so.seq ++ idF v, so.prevElem⟩,
           c, p, false, so.seq == ""⟩ := by
  unfold idOp
  rw [if_neg (by simp [h1]), if_neg (by simp [h2, h3]), if_neg (by simp [h4])]
  have hb : (if so.seq == "" then true else false) = (so.seq == "") := by
    cases h : so.seq == "" <;> simp
  simp only [idF]
  rw [hb]

/-- `class` when no attribute fragment has been recorded. -/
theorem classOp_no_attr (v : String) (so : SelectObj) (c p : List String) (fm fid : Bool)
    (h : so.attr = "") :
    classOp v ⟨so, c, p, fm, fid⟩ =
      .ok ⟨⟨so.tag, so.id, dotF v, so.attr, so.pseudoClass, so.pseudoElement,
            so.seq ++ dotF v, so.prevElem⟩, c, p, false, false⟩ := by
  unfold classOp
  rw [if_neg (by simp [h])]
  rfl

/-- `attr` when no pseudo-class fragment has been recorded. -/
theorem attrOp_no_pcls (v : String) (so : SelectObj) (c p : List String) (fm fid : Bool)
    (h : so.pseudoClass = "") :
    attrOp v ⟨so, c, p, fm, fid⟩ =
      .ok ⟨⟨so.tag, so.id, so.cls, brackF v, so.pseudoClass, so.pseudoElement,
            so.seq ++ brackF v, so.prevElem⟩, c, p, false, false⟩ := by
  unfold attrOp
  rw [if_neg (by simp [h])]
  rfl

/-- `pseudoClass` when no pseudo-element fragment has been recorded. -/
theorem pclsOp_no_pe (v : String) (so : SelectObj) (c p : List String) (fm fid : Bool)
    (h : so.pseudoElement = "") :
    pseudoClassOp v ⟨so, c, p, fm, fid⟩ =
      .ok ⟨⟨so.tag, so.id, so.cls, so.attr, colF v, so.pseudoElement,
            so.seq ++ colF v, so.prevElem⟩, c, p, false, false⟩ := by
  unfold pseudoClassOp
  rw [if_neg (by simp [h])]
  rfl

/-- `pseudoElement` when no pseudo-element fragment has been recorded. -/
theorem pelemOp_no_pe (v : String) (so : SelectObj) (c p : List String) (fm fid : Bool)
    (h : so.pseudoElement = "") :
    pseudoElementOp v ⟨so, c, p, fm, fid⟩ =
      .ok ⟨⟨so.tag, so.id, so.cls, so.attr, so.pseudoClass, pelF v,
            so.seq ++ pelF v, so.prevElem⟩, c, p, false, false⟩ := by
  unfold pseudoElementOp
  rw [if_neg (by simp [h])]
  rfl

/-! ### Phase lemmas for the repeatable categories -/

/-- Running the `class*` phase from a state with no recorded attribute. -/
theorem run_clsPhase (cs : List String) (so : SelectObj) (c p : List String)
    (fm fid : Bool) (h : so.attr = "") :
    runCalls (cs.map Call.clsc) ⟨so, c, p, fm, fid⟩ =
      .ok ⟨⟨so.tag, so.id, lastMapD dotF so.cls cs, so.attr, so.pseudoClass,
            so.pseudoElement, so.seq ++ catMap dotF cs, so.prevElem⟩,
           c, p, if cs.isEmpty then fm else false, if cs.isEmpty then fid else false⟩ := by
  induction cs generalizing so fm fid with
  | nil => simp [runCalls_nil, lastMapD, catMap]
  | cons v vs ih =>
    rw [List.map_cons, runCalls_cons,
        show applyCall (Call.clsc v) ⟨so, c, p, fm, fid⟩ =
          classOp v ⟨so, c, p, fm, fid⟩ from rfl,
        classOp_no_attr v so c p fm fid h, ok_bind,
        ih ⟨so.tag, so.id, dotF v, so.attr, so.pseudoClass, so.pseudoElement,
            so.seq ++ dotF v, so.prevElem⟩ false false h]
    simp [lastMapD, catMap, String.append_assoc]

/-- Running the `attr*` phase from a state with no recorded pseudo-class. -/
theorem run_attrPhase (as : List String) (so : SelectObj) (c p : List String)
    (fm fid : Bool) (h : so.pseudoClass = "") :
    runCalls (as.map Call.attrc) ⟨so, c, p, fm, fid⟩ =
      .ok ⟨⟨so.tag, so.id, so.cls, lastMapD brackF so.attr as, so.pseudoClass,
            so.pseudoElement, so.seq ++ catMap brackF as, so.prevElem⟩,
           c, p, if as.isEmpty then fm else false, if as.isEmpty then fid else false⟩ := by
  induction as generalizing so fm fid with
  | nil => simp [runCalls_nil, lastMapD, catMap]
  | cons v vs ih =>
    rw [List.map_cons, runCalls_cons,
        show applyCall (Call.attrc v) ⟨so, c, p, fm, fid⟩ =
          attrOp v ⟨so, c, p, fm, fid⟩ from rfl,
        attrOp_no_pcls v so c p fm fid h, ok_bind,
        ih ⟨so.tag, so.id, so.cls, brackF v, so.pseudoClass, so.pseudoElement,
            so.seq ++ brackF v, so.prevElem⟩ false false h]
    simp [lastMapD, catMap, String.append_assoc]

/-- Running the `pseudoClass*` phase from a state with no recorded
pseudo-element. -/
theorem run_pclsPhase (ps : List String) (so : SelectObj) (c p : List String)
    (fm fid : Bool) (h : so.pseudoElement = "") :
    runCalls (ps.map Call.pclsc) ⟨so, c, p, fm, fid⟩ =
      .ok ⟨⟨so.tag, so.id, so.cls, so.attr, lastMapD colF so.pseudoClass ps,
            so.pseudoElement, so.seq ++ catMap colF ps, so.prevElem⟩,
           c, p, if ps.isEmpty then fm else false, if ps.isEmpty then fid else false⟩ := by
  induction ps generalizing so fm fid with
  | nil => simp [runCalls_nil, lastMapD, catMap]
  | cons v vs ih =>
    rw [List.map_cons, runCalls_cons,
        show applyCall (Call.pclsc v) ⟨so, c, p, fm, fid⟩ =
          pseudoClassOp v ⟨so, c, p, fm, fid⟩ from rfl,
        pclsOp_no_pe v so c p fm fid h, ok_bind,
        ih ⟨so.tag, so.id, so.cls, so.attr, colF v, so.pseudoElement,
            so.seq ++ colF v, so.prevElem⟩ false false h]
    simp [lastMapD, catMap, String.append_assoc]

/-- Running a full canonical chain from a clean `selectObj` (arbitrary
`combo`, `comboSeparators` and `firstMode`, but `firstId = false`): it
never throws, `seq` accumulates exactly the prefixed fragments, `combo`
and `comboSeparators` are untouched, and the flags end as described by
`endFM`/`endFid`. -/
theorem runCalls_chain (ch : SimpleChain) (c p : List String) (fm : Bool) :
    runCalls ch.calls ⟨SelectObj.clean, c, p, fm, false⟩ =
      .ok ⟨ch.endObj, c, p, ch.endFM fm, ch.endFid⟩ := by
  obtain ⟨t?, i?, cs, as, ps, pe?⟩ := ch
  cases t? <;> cases i? <;> cases pe? <;>
    simp only [SimpleChain.calls, SimpleChain.endObj, SimpleChain.endFM,
      SimpleChain.endFid, SimpleChain.hasTail, SimpleChain.str, SelectObj.clean,
      Option.toList, Option.getD, Option.map, Option.isSome,
      List.map_cons, List.map_nil, List.nil_append, List.cons_append,
      List.append_assoc, runCalls_append, runCalls_cons, runCalls_nil, ok_bind,
      applyCall, element_clean, idOp_seq_eq_tag,
      run_clsPhase, run_attrPhase, run_pclsPhase, pelemOp_no_pe] <;>
    cases cs <;> cases as <;> cases ps <;>
    simp [lastMapD, catMap, idF, String.append_assoc]

/-! ### Fragment rendering in call order -/

/-- The prefixed rendering of one call's fragment. -/
def fragStr : Call → String
  | .elem v => v
  | .idc v => idF v
  | .clsc v => dotF v
  | .attrc v => brackF v
  | .pclsc v => colF v
  | .pelemc v => pelF v

/-- Concatenation of the prefixed fragments of a call list, in call order. -/
def catFrag : List Call → String
  | [] => ""
  | cl :: rest => fragStr cl ++ catFrag rest

theorem catFrag_append (l1 l2 : List Call) :
    catFrag (l1 ++ l2) = catFrag l1 ++ catFrag l2 := by
  induction l1 with
  | nil => simp [catFrag]
  | cons cl rest ih => simp [catFrag, ih, String.append_assoc]

theorem catFrag_map_clsc (cs : List String) :
    catFrag (cs.map Call.clsc) = catMap dotF cs := by
  induction cs with
  | nil => rfl
  | cons v vs ih => simp [catFrag, catMap, fragStr, ih]

theorem catFrag_map_attrc (as : List String) :
    catFrag (as.map Call.attrc) = catMap brackF as := by
  induction as with
  | nil => rfl
  | cons v vs ih => simp [catFrag, catMap, fragStr, ih]

theorem catFrag_map_pclsc (ps : List String) :
    catFrag (ps.map Call.pclsc) = catMap colF ps := by
  induction ps with
  | nil => rfl
  | cons v vs ih => simp [catFrag, catMap, fragStr, ih]

/-- `SimpleChain.str` really is the concatenation of the chain's prefixed
fragments in call order. -/
theorem str_eq_catFrag (ch : SimpleChain) : ch.str = catFrag ch.calls := by
  obtain ⟨t?, i?, cs, as, ps, pe?⟩ := ch
  cases t? <;> cases i? <;> cases pe? <;>
    simp [SimpleChain.str, SimpleChain.calls, catFrag_append, catFrag,
      catFrag_map_clsc, catFrag_map_attrc, catFrag_map_pclsc, fragStr,
      String.append_assoc]

/-! ### Stringify on the two paths -/

/-- `stringify` from a state with an empty `combo`: returns `selectObj.seq`,
clears `selectObj` and the flags, leaves `comboSeparators` untouched. -/
theorem stringify_no_combo (so : SelectObj) (p : List String) (fm fid : Bool) :
    stringify ⟨so, [], p, fm, fid⟩ = (so.seq, ⟨SelectObj.clean, [], p, true, false⟩) := by
  unfold stringify genSelector cleanSelector
  simp [SelectObj.clean]

/-- C1: for every chain of calls on a fresh builder that appends fragments in
a valid category order (optional `element`, then optional `id`, then any
number of `class`, `attr`, `pseudoClass` calls, then optional
`pseudoElement`), the chain runs without error and `stringify()` returns the
concatenation of the fragments in call order with their prefixes: tag
verbatim, `#` + id, `.` + class per call, `[` + attr + `]` per call, `:` +
pseudoClass per call, `::` + pseudoElement — in particular repeated
`class`/`attr`/`pseudoClass` calls all appear, in call order. -/
theorem claim1_stringify_concats_fragments (ch : SimpleChain) :
    ∃ s : Builder, runCalls ch.calls freshBuilder = .ok s ∧
      (stringify s).1 = catFrag ch.calls ∧ (stringify s).1 = ch.str := by
  refine ⟨⟨ch.endObj, [], [], ch.endFM true, ch.endFid⟩, ?_, ?_, ?_⟩
  · exact runCalls_chain ch [] [] true
  · rw [stringify_no_combo, ← str_eq_catFrag]
    rfl
  · rw [stringify_no_combo]
    rfl

/-- C9 (amended): after a successful `stringify()` of a single canonical
simple-selector chain run on a fresh builder, the builder state is exactly
the fresh state again, so the reset guarantee does hold on this path (the
combo path of `stringify` is the one that leaks state, see the
counterexample). -/
theorem claim9_amended_simple_chain_reset (ch : SimpleChain) :
    ∃ s : Builder, runCalls ch.calls freshBuilder = .ok s ∧
      (stringify s).2 = freshBuilder := by
  refine ⟨⟨ch.endObj, [], [], ch.endFM true, ch.endFid⟩, ?_, ?_⟩
  · exact runCalls_chain ch [] [] true
  · rw [stringify_no_combo]
    rfl

/-! ### Flushing behaviour of `element` and `combine` -/

/-- When `seq` is non-empty and `firstMode` is off, the flush in `element`
finalizes the current sequence into `combo` and restores `firstMode`. -/
theorem elementFlush_pos (b : Builder) (hseq : b.selectObj.seq ≠ "")
    (hfm : b.firstMode = false) :
    elementFlush b =
      ⟨SelectObj.clean, b.combo ++ [b.selectObj.seq], b.comboSeparators,
       true, b.firstId⟩ := by
  unfold elementFlush genSelector cleanSelector writeCombo
  rw [if_pos ⟨hseq, by simp [hfm]⟩]
  simp [SelectObj.clean, hseq]

/-- The flush in `element` does nothing on a clean `selectObj`. -/
theorem elementFlush_clean (c p : List String) (fm fid : Bool) :
    elementFlush ⟨SelectObj.clean, c, p, fm, fid⟩ = ⟨SelectObj.clean, c, p, fm, fid⟩ := by
  unfold elementFlush
  simp [SelectObj.clean]

/-- An `element` call on a state with pending fragments and `firstMode` off
behaves exactly like the same call on a state whose sequence was already
flushed into `combo`. -/
theorem applyCall_elem_flush (t : String) (b : Builder)
    (hseq : b.selectObj.seq ≠ "") (hfm : b.firstMode = false) :
    applyCall (Call.elem t) b =
      applyCall (Call.elem t)
        ⟨SelectObj.clean, b.combo ++ [b.selectObj.seq], b.comboSeparators,
         true, b.firstId⟩ := by
  show element t b = element t _
  unfold element
  rw [elementFlush_pos b hseq hfm, elementFlush_clean]

/-- Running an `element`-headed canonical chain from a state with pending
fragments (`seq` non-empty, `firstMode` and `firstId` off): the pending
sequence is flushed as a new `combo` segment and the chain then runs as on
a clean state. -/
theorem runCalls_chain_flush (ch : SimpleChain) (t : String) (hch : ch.tag = some t)
    (b : Builder) (hseq : b.selectObj.seq ≠ "") (hfm : b.firstMode = false)
    (hfid : b.firstId = false) :
    runCalls ch.calls b =
      .ok ⟨ch.endObj, b.combo ++ [b.selectObj.seq], b.comboSeparators,
           ch.endFM true, ch.endFid⟩ := by
  have h1 : ch.calls = Call.elem t ::
      (ch.idv.toList.map Call.idc ++ (ch.cls.map Call.clsc ++ (ch.attrs.map Call.attrc
        ++ (ch.pcls.map Call.pclsc ++ ch.pelem.toList.map Call.pelemc)))) := by
    simp [SimpleChain.calls, hch]
  rw [h1, runCalls_cons, applyCall_elem_flush t b hseq hfm, hfid, ← runCalls_cons, ← h1,
      runCalls_chain]

/-- `combine` on a state with a pending sequence: the sequence is flushed as
a new segment and the combinator is appended to `comboSeparators`; the
flags are untouched and `combine` never throws. -/
theorem combine_flushes (l r b : Builder) (sep : String)
    (h : b.selectObj.seq ≠ "") :
    combine l sep r b =
      ⟨SelectObj.clean, b.combo ++ [b.selectObj.seq],
       b.comboSeparators ++ [sep], b.firstMode, b.firstId⟩ := by
  unfold combine genSelector cleanSelector writeCombo
  rw [if_pos h]
  simp [SelectObj.clean, h]

/-- `stringify` of a two-segment combo with one stored separator. -/
theorem stringify_two (x y sep : String) (fm fid : Bool) :
    stringify ⟨SelectObj.clean, [x, y], [sep], fm, fid⟩ =
      (x ++ " " ++ sep ++ " " ++ y, freshBuilder) := by
  unfold stringify comboParts
  simp [List.enum, List.enumFrom, joinSp, freshBuilder, String.append_assoc]

/-- `stringify` of a three-segment combo with two stored separators: because
the source reverses `comboSeparators`, the separator pushed SECOND (`s2`)
is emitted between the FIRST two segments, and the one pushed first
(`s1`) between the last two. -/
theorem stringify_three (x y z s1 s2 : String) (fm fid : Bool) :
    stringify ⟨SelectObj.clean, [x, y, z], [s1, s2], fm, fid⟩ =
      (x ++ " " ++ s2 ++ " " ++ y ++ " " ++ s1 ++ " " ++ z, freshBuilder) := by
  unfold stringify comboParts
  simp [List.enum, List.enumFrom, joinSp, freshBuilder, String.append_assoc]

/-! ### Non-emptiness of rendered chains -/

theorem str_eq_empty_of_length_zero (s : String) (h : s.length = 0) : s = "" := by
  cases s with
  | mk data =>
    have hd : data = [] := List.length_eq_zero.mp h
    simp [hd]

theorem str_append_ne_left (x y : String) (h : x ≠ "") : x ++ y ≠ "" := by
  intro hxy
  apply h
  have hl : (x ++ y).length = 0 := by rw [hxy]; rfl
  rw [String.length_append] at hl
  exact str_eq_empty_of_length_zero x (Nat.eq_zero_of_add_eq_zero_right hl)

theorem str_append_ne_right (x y : String) (h : y ≠ "") : x ++ y ≠ "" := by
  intro hxy
  apply h
  have hl : (x ++ y).length = 0 := by rw [hxy]; rfl
  rw [String.length_append] at hl
  exact str_eq_empty_of_length_zero y (Nat.eq_zero_of_add_eq_zero_left hl)

/-- A chain with at least one fragment beyond the optional leading `element`
renders to a non-empty string (every such fragment carries a non-empty
prefix). -/
theorem SimpleChain.str_ne_empty (a : SimpleChain) (h : a.hasTail = true) :
    a.str ≠ "" := by
  unfold SimpleChain.hasTail at h
  unfold SimpleChain.str
  simp only [Bool.or_eq_true, Option.isSome_iff_exists, Bool.not_eq_true',
    List.isEmpty_eq_false] at h
  rcases h with (((⟨v, hv⟩ | hcs) | has) | hps) | ⟨v, hv⟩
  · apply str_append_ne_left
    apply str_append_ne_left
    apply str_append_ne_left
    apply str_append_ne_left
    apply str_append_ne_right
    rw [hv]
    exact str_append_ne_left "#" v (by decide)
  · apply str_append_ne_left
    apply str_append_ne_left
    apply str_append_ne_left
    apply str_append_ne_right
    obtain ⟨w, ws, hw⟩ := List.exists_cons_of_ne_nil hcs
    rw [hw]
    exact str_append_ne_left _ _ (str_append_ne_left "." w (by decide))
  · apply str_append_ne_left
    apply str_append_ne_left
    apply str_append_ne_right
    obtain ⟨w, ws, hw⟩ := List.exists_cons_of_ne_nil has
    rw [hw]
    exact str_append_ne_left _ _
      (str_append_ne_left ("[" ++ w) "]" (str_append_ne_left "[" w (by decide)))
  · apply str_append_ne_left
    apply str_append_ne_right
    obtain ⟨w, ws, hw⟩ := List.exists_cons_of_ne_nil hps
    rw [hw]
    exact str_append_ne_left _ _ (str_append_ne_left ":" w (by decide))
  · apply str_append_ne_right
    rw [hv]
    exact str_append_ne_left "::" v (by decide)

/-- A chain headed by an `element` with non-empty tag text renders to a
non-empty string. -/
theorem SimpleChain.str_ne_empty_of_tag (b : SimpleChain) (t : String)
    (hb : b.tag = some t) (ht : t ≠ "") : b.str ≠ "" := by
  unfold SimpleChain.str
  rw [hb]
  exact str_append_ne_left _ _ (str_append_ne_left _ _ (str_append_ne_left _ _
    (str_append_ne_left _ _ (str_append_ne_left _ _ ht))))

/-! ### Combining two and three chains on the shared builder -/

/-- The full execution of `combine(a, sep, b).stringify()` on the shared
builder: since the arguments of `combine` are evaluated first and mutate
the shared object, this runs chain `a`, then chain `b`, then the `combine`
call itself (whose left/right arguments are the builder), then
`stringify`. -/
def chainPair (a : SimpleChain) (sep : String) (b : SimpleChain) :
    Except (String × Builder) (String × Builder) := do
  let s1 ← runCalls a.calls freshBuilder
  let s2 ← runCalls b.calls s1
  let s3 := combine s2 sep s2 s2
  pure (stringify s3)

/-- The full execution of
`combine(combine(a, s1, b), s2, c).stringify()` on the shared builder, in
JavaScript evaluation order: chain `a`, chain `b`, inner `combine`, chain
`c`, outer `combine`, then `stringify`. -/
def chainTriple (a : SimpleChain) (s1 : String) (b : SimpleChain) (s2 : String)
    (c : SimpleChain) : Except (String × Builder) (String × Builder) := do
  let x1 ← runCalls a.calls freshBuilder
  let x2 ← runCalls b.calls x1
  let x3 := combine x2 s1 x2 x2
  let x4 ← runCalls c.calls x3
  let x5 := combine x4 s2 x4 x4
  pure (stringify x5)

/-- C2 (amended): `combine(a, sep, b).stringify()` equals
`a.str ++ ' ' ++ sep ++ ' ' ++ b.str` — for every combinator token `sep` —
provided chain `a` contains at least one fragment besides a lone `element`
(so that `firstMode` is off when `b` starts) and did not end with the
`firstId` flag set, and chain `b` is headed by an `element` with non-empty
tag; the builder ends in the fresh state.  (As stated in the claim, for
arbitrary chains, the property fails: see the counterexample.) -/
theorem claim2_amended_combine_pair (a b : SimpleChain) (sep t : String)
    (hTail : a.hasTail = true) (hFid : a.endFid = false)
    (hb : b.tag = some t) (ht : t ≠ "") :
    chainPair a sep b = .ok (a.str ++ " " ++ sep ++ " " ++ b.str, freshBuilder) := by
  unfold chainPair
  rw [show runCalls a.calls freshBuilder
        = .ok ⟨a.endObj, [], [], a.endFM true, a.endFid⟩ from runCalls_chain a [] [] true]
  simp only [ok_bind]
  rw [runCalls_chain_flush b t hb _ (SimpleChain.str_ne_empty a hTail)
        (by simp [SimpleChain.endFM, hTail]) hFid]
  simp only [ok_bind, List.nil_append]
  rw [combine_flushes _ _ _ sep (SimpleChain.str_ne_empty_of_tag b t hb ht)]
  simp only [List.cons_append, List.nil_append]
  rw [stringify_two]
  rfl

/-- A chain headed by an `element` with non-empty tag never ends with the
`firstId` flag set. -/
theorem SimpleChain.endFid_false_of_tag (b : SimpleChain) (t : String)
    (hb : b.tag = some t) (ht : t ≠ "") : b.endFid = false := by
  unfold SimpleChain.endFid
  rw [hb]
  simp [ht]

/-- C3 (amended): left-nested composition
`combine(combine(a, s1, b), s2, c).stringify()` returns
`a.str ++ ' ' ++ s2 ++ ' ' ++ b.str ++ ' ' ++ s1 ++ ' ' ++ c.str` — the
combinator tokens come out in REVERSE order of the `combine` invocations
(because `stringify` reverses `comboSeparators`), so the token passed with
the inner pair (`s1`) ends up between `b` and `c`, not between `a` and
`b`; the claim's attachment of tokens to their pairs holds only for
right-nested composition. -/
theorem claim3_amended_left_nested (a b c : SimpleChain) (s1 s2 tb tc : String)
    (hTail : a.hasTail = true) (hFid : a.endFid = false)
    (hb : b.tag = some tb) (htb : tb ≠ "")
    (hc : c.tag = some tc) (htc : tc ≠ "") :
    chainTriple a s1 b s2 c =
      .ok (a.str ++ " " ++ s2 ++ " " ++ b.str ++ " " ++ s1 ++ " " ++ c.str,
           freshBuilder) := by
  unfold chainTriple
  rw [show runCalls a.calls freshBuilder
        = .ok ⟨a.endObj, [], [], a.endFM true, a.endFid⟩ from runCalls_chain a [] [] true]
  simp only [ok_bind]
  rw [runCalls_chain_flush b tb hb _ (SimpleChain.str_ne_empty a hTail)
        (by simp [SimpleChain.endFM, hTail]) hFid]
  simp only [ok_bind, List.nil_append]
  rw [combine_flushes _ _ _ s1 (SimpleChain.str_ne_empty_of_tag b tb hb htb)]
  simp only [List.cons_append, List.nil_append]
  rw [SimpleChain.endFid_false_of_tag b tb hb htb]
  rw [runCalls_chain c [a.endObj.seq, b.endObj.seq] [s1] (b.endFM true)]
  simp only [ok_bind]
  rw [combine_flushes _ _ _ s2 (SimpleChain.str_ne_empty_of_tag c tc hc htc)]
  simp only [List.cons_append, List.nil_append]
  rw [stringify_three]
  rfl

/-- C2 counterexample: for the two simple-selector chains `element('a')` and
`element('b')` the claimed equality fails — the evaluation of the second
chain throws the duplicate error (the first chain left `firstMode` on, so
no flush happens and `element` sees the previous tag), instead of
`stringify` returning `'a + b'`. -/
theorem claim2_counterexample :
    chainPair ⟨some "a", none, [], [], [], none⟩ "+"
        ⟨some "b", none, [], [], [], none⟩ =
      .error (errMoreThanOne, freshBuilder) ∧
    (Except.error (errMoreThanOne, freshBuilder) ≠
      (.ok ("a" ++ " " ++ "+" ++ " " ++ "b", freshBuilder) :
        Except (String × Builder) (String × Builder))) := by
  constructor
  · rfl
  · intro h
    exact Except.noConfusion h

/-- C2 witness: the amended combine law at the concrete chains
`element('p').id('u')` and `element('q')` with combinator `>`. -/
theorem claim2_witness :
    chainPair ⟨some "p", some "u", [], [], [], none⟩ ">"
        ⟨some "q", none, [], [], [], none⟩ =
      .ok ((⟨some "p", some "u", [], [], [], none⟩ : SimpleChain).str ++ " " ++ ">"
            ++ " " ++ (⟨some "q", none, [], [], [], none⟩ : SimpleChain).str,
           freshBuilder) :=
  claim2_amended_combine_pair ⟨some "p", some "u", [], [], [], none⟩
    ⟨some "q", none, [], [], [], none⟩ ">" "q" (by decide) (by decide) rfl (by decide)

/-- C3 counterexample: for the left-nested composition
`combine(combine(element('a').id('x'), '+', element('b').id('y')), '~',
element('c').id('z')).stringify()` the code returns `'a#x ~ b#y + c#z'` —
the separator of the inner pair (`+`) does NOT stay attached to it — and
not the claimed `'a#x + b#y ~ c#z'`. -/
theorem claim3_counterexample :
    chainTriple ⟨some "a", some "x", [], [], [], none⟩ "+"
        ⟨some "b", some "y", [], [], [], none⟩ "~"
        ⟨some "c", some "z", [], [], [], none⟩ =
      .ok ("a#x ~ b#y + c#z", freshBuilder) ∧
    ("a#x ~ b#y + c#z" : String) ≠ "a#x + b#y ~ c#z" := by
  constructor
  · rfl
  · decide

/-- C3 witness: the amended left-nested law at the concrete chains
`element('p').id('u')`, `element('q')`, `element('r')`. -/
theorem claim3_witness :
    chainTriple ⟨some "p", some "u", [], [], [], none⟩ "+"
        ⟨some "q", none, [], [], [], none⟩ "~"
        ⟨some "r", none, [], [], [], none⟩ =
      .ok ((⟨some "p", some "u", [], [], [], none⟩ : SimpleChain).str ++ " " ++ "~"
            ++ " " ++ (⟨some "q", none, [], [], [], none⟩ : SimpleChain).str ++ " "
            ++ "+" ++ " " ++ (⟨some "r", none, [], [], [], none⟩ : SimpleChain).str,
           freshBuilder) :=
  claim3_amended_left_nested ⟨some "p", some "u", [], [], [], none⟩
    ⟨some "q", none, [], [], [], none⟩ ⟨some "r", none, [], [], [], none⟩
    "+" "~" "q" "r" (by decide) (by decide) rfl (by decide) rfl (by decide)

/-! ### Properties of `elementFlush` and the error states -/

theorem elementFlush_firstId (b : Builder) : (elementFlush b).firstId = b.firstId := by
  unfold elementFlush writeCombo genSelector cleanSelector
  split
  · split <;> rfl
  · rfl

theorem elementFlush_comboSeparators (b : Builder) :
    (elementFlush b).comboSeparators = b.comboSeparators := by
  unfold elementFlush writeCombo genSelector cleanSelector
  split
  · split <;> rfl
  · rfl

theorem elementFlush_of_firstMode (b : Builder) (h : b.firstMode = true) :
    elementFlush b = b := by
  unfold elementFlush
  rw [if_neg]
  simp [h]

/-- `element` on a state with pending fragments (`firstMode` off, `seq`
non-empty, `firstId` off): no error; the pending sequence is flushed into
`combo` and a new segment starts with the given tag. -/
theorem element_flush_ok (b : Builder) (v : String) (hfm : b.firstMode = false)
    (hfid : b.firstId = false) (hseq : b.selectObj.seq ≠ "") :
    element v b = .ok ⟨⟨v, "", "", "", "", "", v, ""⟩,
      b.combo ++ [b.selectObj.seq], b.comboSeparators, true, false⟩ := by
  unfold element
  rw [elementFlush_pos b hseq hfm, hfid]
  simp [SelectObj.clean]

/-- C6 (amended): `element` raises the order error exactly when the
`firstId` flag is set (the current fragment sequence began with an `id`
and nothing was appended after it); when other fragments (class, attr,
pseudo-class, pseudo-element) were already added — `firstMode` off, `seq`
non-empty — `element` does NOT raise; instead it flushes the current
sequence into the `combo` list and starts a new simple selector. -/
theorem claim6_amended_element_order (b : Builder) (v : String) :
    (b.firstId = true → ∃ b', element v b = .error (errOrder, b')) ∧
    (b.firstId = false → b.firstMode = false → b.selectObj.seq ≠ "" →
      element v b = .ok ⟨⟨v, "", "", "", "", "", v, ""⟩,
        b.combo ++ [b.selectObj.seq], b.comboSeparators, true, false⟩) := by
  constructor
  · intro h
    refine ⟨(genError errOrder (elementFlush b)).2, ?_⟩
    show element v b = .error (genError errOrder (elementFlush b))
    unfold element
    rw [if_pos (by rw [elementFlush_firstId, h])]
  · intro hfid hfm hseq
    exact element_flush_ok b v hfm hfid hseq

/-- C6 counterexample: in the chain `class('c')` then `element('a')` the
class fragment has already been added, yet `element` raises no order
error: it flushes `.c` as a combo segment and happily starts a new simple
selector with tag `a`. -/
theorem claim6_counterexample :
    runCalls [Call.clsc "c", Call.elem "a"] freshBuilder =
      .ok ⟨⟨"a", "", "", "", "", "", "a", ""⟩, [".c"], [], true, false⟩ := by
  rfl

/-- C6 witness: instantiating the amended theorem: with `firstId` set (after
a bare `id('x')` call) `element` raises the order error, and after
`class('c')` (firstId off, firstMode off) `element('t')` succeeds with the
flush. -/
theorem claim6_witness :
    (∃ b', element "t" ⟨⟨"", "#x", "", "", "", "", "#x", ""⟩, [], [], false, true⟩ =
      .error (errOrder, b')) ∧
    element "t" ⟨⟨"", "", ".c", "", "", "", ".c", ""⟩, [], [], false, false⟩ =
      .ok ⟨⟨"t", "", "", "", "", "", "t", ""⟩, [".c"], [], true, false⟩ := by
  constructor
  · exact (claim6_amended_element_order ⟨⟨"", "#x", "", "", "", "", "#x", ""⟩,
      [], [], false, true⟩ "t").1 rfl
  · exact (claim6_amended_element_order ⟨⟨"", "", ".c", "", "", "", ".c", ""⟩,
      [], [], false, false⟩ "t").2 rfl rfl (by decide)

/-- C7 (amended): a second `id` or a second `pseudoElement` while the first
one is still recorded in the current simple selector always raises the
duplicate error; a second `element` raises it only while `firstMode` is
still on, i.e. when no other fragment call intervened — otherwise (some
fragment was appended in between, `firstMode` off) the second `element`
silently flushes the current sequence as a combo segment and starts a new
one instead of raising. -/
theorem claim7_amended_duplicates (b : Builder) (v : String) :
    (b.selectObj.id ≠ "" → ∃ b', idOp v b = .error (errMoreThanOne, b')) ∧
    (b.selectObj.pseudoElement ≠ "" →
      ∃ b', pseudoElementOp v b = .error (errMoreThanOne, b')) ∧
    (b.firstMode = true → b.firstId = false → b.selectObj.tag ≠ "" →
      ∃ b', element v b = .error (errMoreThanOne, b')) ∧
    (b.firstMode = false → b.firstId = false → b.selectObj.seq ≠ "" →
      ∃ b', element v b = .ok b' ∧ b'.combo = b.combo ++ [b.selectObj.seq]) := by
  refine ⟨?_, ?_, ?_, ?_⟩
  · intro h
    refine ⟨(genError errMoreThanOne b).2, ?_⟩
    unfold idOp
    rw [if_pos h]
    rfl
  · intro h
    refine ⟨(genError errMoreThanOne b).2, ?_⟩
    unfold pseudoElementOp
    rw [if_pos h]
    rfl
  · intro hfm hfid htag
    refine ⟨(genError errMoreThanOne b).2, ?_⟩
    show element v b = .error (genError errMoreThanOne b)
    unfold element
    rw [elementFlush_of_firstMode b hfm, if_neg (by simp [hfid]), if_pos ⟨htag, hfm⟩]
  · intro hfm hfid hseq
    exact ⟨⟨⟨v, "", "", "", "", "", v, ""⟩,
      b.combo ++ [b.selectObj.seq], b.comboSeparators, true, false⟩,
      element_flush_ok b v hfm hfid hseq, rfl⟩

/-- C7 counterexample: the chain `element('a').class('c').element('b')`
calls `element` a second time within one chain, yet no duplicate error is
raised — the second `element` flushes `a.c` into the combo list and
starts a fresh segment `b`. -/
theorem claim7_counterexample :
    runCalls [Call.elem "a", Call.clsc "c", Call.elem "b"] freshBuilder =
      .ok ⟨⟨"b", "", "", "", "", "", "b", ""⟩, ["a.c"], [], true, false⟩ := by
  rfl

/-- C7 witness: the amended duplicate behaviour at concrete states: a second
`id` (after `element('e').id('x')`) and a second `pseudoElement` (after
`pseudoElement('p')`) raise the duplicate error, and a second `element`
right after `element('e')` (firstMode still on) raises it too. -/
theorem claim7_witness :
    (∃ b', idOp "y" ⟨⟨"e", "#x", "", "", "", "", "e#x", ""⟩, [], [], false, false⟩ =
      .error (errMoreThanOne, b')) ∧
    (∃ b', pseudoElementOp "q" ⟨⟨"", "", "", "", "", "::p", "::p", ""⟩, [], [], false, false⟩ =
      .error (errMoreThanOne, b')) ∧
    (∃ b', element "f" ⟨⟨"e", "", "", "", "", "", "e", ""⟩, [], [], true, false⟩ =
      .error (errMoreThanOne, b')) := by
  refine ⟨?_, ?_, ?_⟩
  · exact (claim7_amended_duplicates ⟨⟨"e", "#x", "", "", "", "", "e#x", ""⟩,
      [], [], false, false⟩ "y").1 (by decide)
  · exact (claim7_amended_duplicates ⟨⟨"", "", "", "", "", "::p", "::p", ""⟩,
      [], [], false, false⟩ "q").2.1 (by decide)
  · exact (claim7_amended_duplicates ⟨⟨"e", "", "", "", "", "", "e", ""⟩,
      [], [], true, false⟩ "f").2.2.1 rfl rfl (by decide)

/-- C4 (amended): `class` after `attr` raises the order error (thrown
directly, with the state unchanged), `attr` after `pseudoClass` raises the
order error, and `id` or `pseudoClass` after `pseudoElement` raises the
order error; but NOT every fragment category after `pseudoElement`
raises: `class` (when no attribute was recorded) and `attr` (when no
pseudo-class was recorded) append without error after a `pseudoElement`,
and `element` after `pseudoElement` flushes a new combo segment without
error. -/
theorem claim4_amended_order_errors (b : Builder) (v : String) :
    (b.selectObj.attr ≠ "" → classOp v b = .error (errOrder, b)) ∧
    (b.selectObj.pseudoClass ≠ "" → ∃ b', attrOp v b = .error (errOrder, b')) ∧
    (b.selectObj.pseudoElement ≠ "" → b.selectObj.id = "" →
      ∃ b', idOp v b = .error (errOrder, b')) ∧
    (b.selectObj.pseudoElement ≠ "" → ∃ b', pseudoClassOp v b = .error (errOrder, b')) ∧
    (b.selectObj.pseudoElement ≠ "" → b.selectObj.attr = "" →
      ∃ b', classOp v b = .ok b') ∧
    (b.selectObj.pseudoElement ≠ "" → b.selectObj.pseudoClass = "" →
      ∃ b', attrOp v b = .ok b') ∧
    (b.selectObj.pseudoElement ≠ "" → b.selectObj.seq ≠ "" → b.firstMode = false →
      b.firstId = false → ∃ b', element v b = .ok b') := by
  refine ⟨?_, ?_, ?_, ?_, ?_, ?_, ?_⟩
  · intro h
    unfold classOp
    rw [if_pos h]
  · intro h
    refine ⟨(genError errOrder b).2, ?_⟩
    unfold attrOp
    rw [if_pos h]
    rfl
  · intro hpe hid
    refine ⟨(genError errOrder b).2, ?_⟩
    unfold idOp
    rw [if_neg (by simp [hid]), if_pos (Or.inr hpe)]
    rfl
  · intro h
    refine ⟨(genError errOrder b).2, ?_⟩
    unfold pseudoClassOp
    rw [if_pos h]
    rfl
  · intro _ hattr
    exact ⟨_, classOp_no_attr v b.selectObj b.combo b.comboSeparators
      b.firstMode b.firstId hattr⟩
  · intro _ hpc
    exact ⟨_, attrOp_no_pcls v b.selectObj b.combo b.comboSeparators
      b.firstMode b.firstId hpc⟩
  · intro _ hseq hfm hfid
    exact ⟨_, element_flush_ok b v hfm hfid hseq⟩

/-- C4 counterexample: in `element('a').pseudoElement('p').class('c')` the
`class` fragment is appended AFTER the pseudo-element without an order
error; the chain succeeds and stringifies to `'a::p.c'`. -/
theorem claim4_counterexample :
    runCalls [Call.elem "a", Call.pelemc "p", Call.clsc "c"] freshBuilder =
      .ok ⟨⟨"a", "", ".c", "", "", "::p", "a::p.c", ""⟩, [], [], false, false⟩ ∧
    (stringify ⟨⟨"a", "", ".c", "", "", "::p", "a::p.c", ""⟩, [], [], false, false⟩).1 =
      "a::p.c" := by
  constructor
  · rfl
  · rfl

/-- C4 witness: instantiating the amended theorem at two concrete states:
one with attribute + pseudo-class + pseudo-element fragments recorded
(order errors for class, attr, id and pseudoClass), and one with only a
pseudo-element recorded (class and attr succeed after it). -/
theorem claim4_witness :
    (classOp "c" ⟨⟨"a", "", "", "[w]", ":h", "::p", "a[w]:h::p", ""⟩, [], [], false, false⟩ =
      .error (errOrder, ⟨⟨"a", "", "", "[w]", ":h", "::p", "a[w]:h::p", ""⟩, [], [], false, false⟩)) ∧
    (∃ b', attrOp "x" ⟨⟨"a", "", "", "[w]", ":h", "::p", "a[w]:h::p", ""⟩, [], [], false, false⟩ =
      .error (errOrder, b')) ∧
    (∃ b', idOp "x" ⟨⟨"a", "", "", "[w]", ":h", "::p", "a[w]:h::p", ""⟩, [], [], false, false⟩ =
      .error (errOrder, b')) ∧
    (∃ b', pseudoClassOp "x" ⟨⟨"a", "", "", "[w]", ":h", "::p", "a[w]:h::p", ""⟩, [], [], false, false⟩ =
      .error (errOrder, b')) ∧
    (∃ b', classOp "c" ⟨⟨"a", "", "", "", "", "::p", "a::p", ""⟩, [], [], false, false⟩ = .ok b') ∧
    (∃ b', attrOp "x" ⟨⟨"a", "", "", "", "", "::p", "a::p", ""⟩, [], [], false, false⟩ = .ok b') ∧
    (∃ b', element "c" ⟨⟨"a", "", "", "", "", "::p", "a::p", ""⟩, [], [], false, false⟩ = .ok b') := by
  have h1 := claim4_amended_order_errors
    ⟨⟨"a", "", "", "[w]", ":h", "::p", "a[w]:h::p", ""⟩, [], [], false, false⟩ "c"
  have h2 := claim4_amended_order_errors
    ⟨⟨"a", "", "", "", "", "::p", "a::p", ""⟩, [], [], false, false⟩ "c"
  refine ⟨h1.1 (by decide), ?_, h1.2.2.1 (by decide) rfl, h1.2.2.2.1 (by decide),
    h2.2.2.2.2.1 (by decide) rfl, ?_, h2.2.2.2.2.2.2 (by decide) (by decide) rfl rfl⟩
  · exact (claim4_amended_order_errors
      ⟨⟨"a", "", "", "[w]", ":h", "::p", "a[w]:h::p", ""⟩, [], [], false, false⟩ "x").2.1
      (by decide)
  · exact (claim4_amended_order_errors
      ⟨⟨"a", "", "", "", "", "::p", "a::p", ""⟩, [], [], false, false⟩ "x").2.2.2.2.2.1
      (by decide) rfl

theorem lastMapD_cons_ne (f : String → String) (hf : ∀ x, f x ≠ "") (v : String)
    (vs : List String) : lastMapD f (f v) vs ≠ "" := by
  induction vs generalizing v with
  | nil => exact hf v
  | cons w ws ih => exact ih w

theorem str_length_pos (s : String) (h : s ≠ "") : 0 < s.length :=
  Nat.pos_of_ne_zero (fun h0 => h (str_eq_empty_of_length_zero s h0))

/-- C5 (amended): after a valid chain with no `id` call yet, `id` raises the
order error whenever a `class` or `pseudoElement` fragment is present, and
also whenever an `element` call preceded and an `attr` or `pseudoClass`
fragment was appended after the tag (the sequence grew past the tag); but
with NO preceding `element` call and only `attr`/`pseudoClass` fragments,
`id` does not raise — it simply appends out of order. -/
theorem claim5_amended_id_order (ch : SimpleChain) (v t : String) :
    (ch.idv = none → (ch.cls ≠ [] ∨ ch.pelem.isSome = true) →
      ∃ s b', runCalls ch.calls freshBuilder = .ok s ∧
        idOp v s = .error (errOrder, b')) ∧
    (ch.idv = none → ch.tag = some t → t ≠ "" → ch.cls = [] → ch.pelem = none →
      (ch.attrs ≠ [] ∨ ch.pcls ≠ []) →
      ∃ s b', runCalls ch.calls freshBuilder = .ok s ∧
        idOp v s = .error (errOrder, b')) ∧
    (ch.idv = none → ch.tag = none → ch.cls = [] → ch.pelem = none →
      ∃ s, runCalls ch.calls freshBuilder = .ok s ∧ ∃ s2, idOp v s = .ok s2) := by
  refine ⟨?_, ?_, ?_⟩
  · intro hidv hfrag
    refine ⟨⟨ch.endObj, [], [], ch.endFM true, ch.endFid⟩,
      (genError errOrder ⟨ch.endObj, [], [], ch.endFM true, ch.endFid⟩).2,
      runCalls_chain ch [] [] true, ?_⟩
    unfold idOp
    rw [if_neg (by simp [SimpleChain.endObj, hidv]), if_pos ?_]
    · rfl
    · rcases hfrag with hcls | hpe
      · left
        obtain ⟨w, ws, hw⟩ := List.exists_cons_of_ne_nil hcls
        show ch.endObj.cls ≠ ""
        unfold SimpleChain.endObj
        rw [hw]
        exact lastMapD_cons_ne dotF
          (fun x => str_append_ne_left "." x (by decide)) w ws
      · right
        obtain ⟨u, hu⟩ := Option.isSome_iff_exists.mp hpe
        show ch.endObj.pseudoElement ≠ ""
        unfold SimpleChain.endObj
        rw [hu]
        exact str_append_ne_left "::" u (by decide)
  · intro hidv htag ht hcls hpe hap
    refine ⟨⟨ch.endObj, [], [], ch.endFM true, ch.endFid⟩,
      (genError errOrder ⟨ch.endObj, [], [], ch.endFM true, ch.endFid⟩).2,
      runCalls_chain ch [] [] true, ?_⟩
    unfold idOp
    rw [if_neg (by simp [SimpleChain.endObj, hidv]),
        if_neg (by simp [SimpleChain.endObj, hidv, hcls, hpe, lastMapD]),
        if_pos ?_]
    · rfl
    · constructor
      · show ch.endObj.tag ≠ ""
        simp [SimpleChain.endObj, htag, ht]
      · show ch.endObj.tag.length < ch.endObj.seq.length
        have hstr : ch.endObj.seq = ch.str := rfl
        have htg : ch.endObj.tag = t := by simp [SimpleChain.endObj, htag]
        rw [hstr, htg]
        unfold SimpleChain.str
        rw [hidv, hcls, hpe, htag]
        simp only [Option.map_none, Option.getD_none, Option.getD_some, catMap,
          String.length_append]
        have hpos : 0 < (catMap brackF ch.attrs).length +
            (catMap colF ch.pcls).length := by
          rcases hap with ha | hp
          · obtain ⟨w, ws, hw⟩ := List.exists_cons_of_ne_nil ha
            have : catMap brackF ch.attrs ≠ "" := by
              rw [hw]
              exact str_append_ne_left _ _
                (str_append_ne_left ("[" ++ w) "]"
                  (str_append_ne_left "[" w (by decide)))
            have := str_length_pos _ this
            omega
          · obtain ⟨w, ws, hw⟩ := List.exists_cons_of_ne_nil hp
            have : catMap colF ch.pcls ≠ "" := by
              rw [hw]
              exact str_append_ne_left _ _ (str_append_ne_left ":" w (by decide))
            have := str_length_pos _ this
            omega
        omega
  · intro hidv htag hcls hpe
    refine ⟨⟨ch.endObj, [], [], ch.endFM true, ch.endFid⟩,
      runCalls_chain ch [] [] true, ?_⟩
    unfold idOp
    rw [if_neg (by simp [SimpleChain.endObj, hidv]),
        if_neg (by simp [SimpleChain.endObj, hidv, hcls, hpe, lastMapD]),
        if_neg (by simp [SimpleChain.endObj, htag])]
    exact ⟨_, rfl⟩

/-- C5 counterexample: with no preceding `element` call, `id` after an
`attr` fragment raises NO error: `attr('x').id('y')` succeeds and
stringifies to `'[x]#y'` (an out-of-order selector), where the claim
requires the order error. -/
theorem claim5_counterexample :
    runCalls [Call.attrc "x"] freshBuilder =
      .ok ⟨⟨"", "", "", "[x]", "", "", "[x]", ""⟩, [], [], false, false⟩ ∧
    idOp "y" ⟨⟨"", "", "", "[x]", "", "", "[x]", ""⟩, [], [], false, false⟩ =
      .ok ⟨⟨"", "#y", "", "[x]", "", "", "[x]#y", ""⟩, [], [], false, false⟩ ∧
    (stringify ⟨⟨"", "#y", "", "[x]", "", "", "[x]#y", ""⟩, [], [], false, false⟩).1 =
      "[x]#y" := by
  exact ⟨rfl, rfl, rfl⟩

/-- C5 witness: the amended theorem instantiated at the chains
`class('c')` (order error from the class check), `element('a').attr('w')`
(order error from the sequence-length check) and `attr('w')` (no error). -/
theorem claim5_witness :
    (∃ s b', runCalls (SimpleChain.calls ⟨none, none, ["c"], [], [], none⟩)
        freshBuilder = .ok s ∧ idOp "y" s = .error (errOrder, b')) ∧
    (∃ s b', runCalls (SimpleChain.calls ⟨some "a", none, [], ["w"], [], none⟩)
        freshBuilder = .ok s ∧ idOp "y" s = .error (errOrder, b')) ∧
    (∃ s, runCalls (SimpleChain.calls ⟨none, none, [], ["w"], [], none⟩)
        freshBuilder = .ok s ∧ ∃ s2, idOp "y" s = .ok s2) := by
  refine ⟨?_, ?_, ?_⟩
  · exact (claim5_amended_id_order ⟨none, none, ["c"], [], [], none⟩ "y" "a").1 rfl
      (Or.inl (by decide))
  · exact (claim5_amended_id_order ⟨some "a", none, [], ["w"], [], none⟩ "y" "a").2.1
      rfl rfl (by decide) rfl rfl (Or.inl (by decide))
  · exact (claim5_amended_id_order ⟨none, none, [], ["w"], [], none⟩ "y" "a").2.2
      rfl rfl rfl rfl

/-- C8 (amended): no builder operation clears the whole session state before
throwing.  When an operation throws through `genError` (all error paths
except the class-after-attr check), `selectObj` is cleared and the flags
are reset, but `comboSeparators` (and likewise `combo`) survive; the
class-after-attr order error is thrown directly with NO cleanup at all, so
the state at the throw is exactly the state before the call.  Hence a
chain started after catching an error is not guaranteed to behave as on a
fresh builder (see the counterexample). -/
theorem claim8_amended_error_state (op : Call) (b : Builder) (msg : String)
    (b' : Builder) (h : applyCall op b = .error (msg, b')) :
    b'.comboSeparators = b.comboSeparators ∧
    ((∃ v, op = Call.clsc v) → b' = b) ∧
    ((∀ v, op ≠ Call.clsc v) →
      b'.selectObj = SelectObj.clean ∧ b'.firstMode = true ∧ b'.firstId = false) := by
  cases op with
  | elem v =>
    simp only [applyCall, element] at h
    split at h
    · simp only [genError, cleanSelector, Except.error.injEq, Prod.mk.injEq] at h
      obtain ⟨hm, hb⟩ := h
      subst hb
      refine ⟨elementFlush_comboSeparators b, ?_, fun _ => ⟨rfl, rfl, rfl⟩⟩
      rintro ⟨w, hw⟩
      simp at hw
    · split at h
      · simp only [genError, cleanSelector, Except.error.injEq, Prod.mk.injEq] at h
        obtain ⟨hm, hb⟩ := h
        subst hb
        refine ⟨elementFlush_comboSeparators b, ?_, fun _ => ⟨rfl, rfl, rfl⟩⟩
        rintro ⟨w, hw⟩
        simp at hw
      · simp at h
  | idc v =>
    simp only [applyCall, idOp] at h
    split at h
    · simp only [genError, cleanSelector, Except.error.injEq, Prod.mk.injEq] at h
      obtain ⟨hm, hb⟩ := h
      subst hb
      refine ⟨rfl, ?_, fun _ => ⟨rfl, rfl, rfl⟩⟩
      rintro ⟨w, hw⟩
      simp at hw
    · split at h
      · simp only [genError, cleanSelector, Except.error.injEq, Prod.mk.injEq] at h
        obtain ⟨hm, hb⟩ := h
        subst hb
        refine ⟨rfl, ?_, fun _ => ⟨rfl, rfl, rfl⟩⟩
        rintro ⟨w, hw⟩
        simp at hw
      · split at h
        · simp only [genError, cleanSelector, Except.error.injEq, Prod.mk.injEq] at h
          obtain ⟨hm, hb⟩ := h
          subst hb
          refine ⟨rfl, ?_, fun _ => ⟨rfl, rfl, rfl⟩⟩
          rintro ⟨w, hw⟩
          simp at hw
        · simp at h
  | clsc v =>
    simp only [applyCall, classOp] at h
    split at h
    · simp only [Except.error.injEq, Prod.mk.injEq] at h
      obtain ⟨hm, hb⟩ := h
      subst hb
      refine ⟨rfl, fun _ => rfl, ?_⟩
      intro hall
      exact absurd rfl (hall v)
    · simp at h
  | attrc v =>
    simp only [applyCall, attrOp] at h
    split at h
    · simp only [genError, cleanSelector, Except.error.injEq, Prod.mk.injEq] at h
      obtain ⟨hm, hb⟩ := h
      subst hb
      refine ⟨rfl, ?_, fun _ => ⟨rfl, rfl, rfl⟩⟩
      rintro ⟨w, hw⟩
      simp at hw
    · simp at h
  | pclsc v =>
    simp only [applyCall, pseudoClassOp] at h
    split at h
    · simp only [genError, cleanSelector, Except.error.injEq, Prod.mk.injEq] at h
      obtain ⟨hm, hb⟩ := h
      subst hb
      refine ⟨rfl, ?_, fun _ => ⟨rfl, rfl, rfl⟩⟩
      rintro ⟨w, hw⟩
      simp at hw
    · simp at h
  | pelemc v =>
    simp only [applyCall, pseudoElementOp] at h
    split at h
    · simp only [genError, cleanSelector, Except.error.injEq, Prod.mk.injEq] at h
      obtain ⟨hm, hb⟩ := h
      subst hb
      refine ⟨rfl, ?_, fun _ => ⟨rfl, rfl, rfl⟩⟩
      rintro ⟨w, hw⟩
      simp at hw
    · simp at h

/-- C8 counterexample: `attr('a')` then `class('c')` throws the order error
WITHOUT any cleanup — the failed state (with `[a]` still buffered) is kept
— and a chain started after catching the error is polluted: `element('t')`
then `stringify()` returns `'[a]'` (the leftover fragment flushed into
`combo`), whereas the same chain on a fresh builder returns `'t'`. -/
theorem claim8_counterexample :
    (do
      let s ← attrOp "a" freshBuilder
      classOp "c" s : BResult) =
      .error (errOrder, ⟨⟨"", "", "", "[a]", "", "", "[a]", ""⟩, [], [], false, false⟩) ∧
    (do
      let s ← element "t" ⟨⟨"", "", "", "[a]", "", "", "[a]", ""⟩, [], [], false, false⟩
      pure (stringify s).1 : Except (String × Builder) String) = .ok "[a]" ∧
    (do
      let s ← element "t" freshBuilder
      pure (stringify s).1 : Except (String × Builder) String) = .ok "t" ∧
    ("[a]" : String) ≠ "t" := by
  refine ⟨rfl, rfl, rfl, by decide⟩

/-- C8 witness: the amended theorem at a concrete error: `attr` on a state
with a recorded pseudo-class throws and leaves `selectObj` clean, the
flags reset, and `comboSeparators` as they were. -/
theorem claim8_witness :
    (⟨SelectObj.clean, ["x"], ["+"], true, false⟩ : Builder).comboSeparators =
      (⟨⟨"", "", "", "", ":h", "", ":h", ""⟩, ["x"], ["+"], false, false⟩ : Builder).comboSeparators ∧
    ((∃ v, Call.attrc "w" = Call.clsc v) →
      (⟨SelectObj.clean, ["x"], ["+"], true, false⟩ : Builder) =
        ⟨⟨"", "", "", "", ":h", "", ":h", ""⟩, ["x"], ["+"], false, false⟩) ∧
    ((∀ v, Call.attrc "w" ≠ Call.clsc v) →
      (⟨SelectObj.clean, ["x"], ["+"], true, false⟩ : Builder).selectObj = SelectObj.clean ∧
      (⟨SelectObj.clean, ["x"], ["+"], true, false⟩ : Builder).firstMode = true ∧
      (⟨SelectObj.clean, ["x"], ["+"], true, false⟩ : Builder).firstId = false) :=
  claim8_amended_error_state (Call.attrc "w")
    ⟨⟨"", "", "", "", ":h", "", ":h", ""⟩, ["x"], ["+"], false, false⟩
    errOrder ⟨SelectObj.clean, ["x"], ["+"], true, false⟩ rfl

/-- C9 counterexample: the successful chain
`element('a').id('x').element('b')` (the second `element` flushes `a#x`
into `combo`) followed by `stringify()` returns `'a#x'` but does NOT reset
the whole session state: the in-progress fragment buffer (`tag = seq =
'b'`) survives, and the next independent chain `element('c')` throws the
duplicate error, while on a brand-new builder `element('c')` succeeds. -/
theorem claim9_counterexample :
    runCalls [Call.elem "a", Call.idc "x", Call.elem "b"] freshBuilder =
      .ok ⟨⟨"b", "", "", "", "", "", "b", ""⟩, ["a#x"], [], true, false⟩ ∧
    stringify ⟨⟨"b", "", "", "", "", "", "b", ""⟩, ["a#x"], [], true, false⟩ =
      ("a#x", ⟨⟨"b", "", "", "", "", "", "b", ""⟩, [], [], true, false⟩) ∧
    element "c" ⟨⟨"b", "", "", "", "", "", "b", ""⟩, [], [], true, false⟩ =
      .error (errMoreThanOne, freshBuilder) ∧
    element "c" freshBuilder =
      .ok ⟨⟨"c", "", "", "", "", "", "c", ""⟩, [], [], true, false⟩ := by
  refine ⟨rfl, rfl, rfl, rfl⟩

/-- C10: the result and state effect of `combine` are independent of its
first and third arguments — for every builder state and all argument
values, `combine(l1, sep, r1)` and `combine(l2, sep, r2)` produce the same
builder state and hence identical `stringify()` output; only the
combinator token and the previously executed chained calls matter. -/
theorem claim10_combine_ignores_operands (b l1 r1 l2 r2 : Builder) (sep : String) :
    combine l1 sep r1 b = combine l2 sep r2 b ∧
      stringify (combine l1 sep r1 b) = stringify (combine l2 sep r2 b) :=
  ⟨rfl, rfl⟩

end CoreJs
